import Mathlib

/-!
Verification of the layout and pointer-table construction of
`lcl_array2d_init` and `lcl_array3d_init` from `lcl_array.h`
(Little C Library).

Embedding choices (LP64 model):
* `size_t` and pointers are 64-bit; `sizeof(unsigned char *)` and
  `sizeof(unsigned char **)` are `ptrSize = 8` bytes; `size_t`
  arithmetic wraps modulo `SIZE_MOD = 2 ^ 64`.
* The allocated block is modelled as a byte memory `Mem : Nat → Nat`
  indexed by absolute address; `calloc` yields a zero memory
  (`zeroMem`) at some base address supplied by a host allocator
  `host : Nat → Option Nat` (argument: requested length in bytes).
* Storing a pointer writes its 8 little-endian bytes
  (`writeBytes`); loading one reassembles them (`readBytes`).
  In particular a stored value is truncated modulo `2 ^ 64`,
  exactly as on the machine.
* C pointer arithmetic (`array + rows`, `&array[row]`) is modelled
  as exact natural-number address arithmetic, while every value
  computed in `size_t` (the products appearing in `alloc_len` and
  in the loop bodies) is reduced modulo `SIZE_MOD`, as in the
  source.
-/

namespace LCL

/-- `sizeof(unsigned char *)` on the modelled LP64 host. -/
def ptrSize : Nat := 8

/-- Modulus of `size_t` arithmetic: `SIZE_MAX + 1 = 2 ^ 64`. -/
def SIZE_MOD : Nat := 2 ^ 64

/-- Byte memory: absolute address to byte value. -/
def Mem : Type := Nat → Nat

/-- The zeroed block returned by `calloc`. -/
def zeroMem : Mem := fun _ => 0

/-- Little-endian byte `i` of the value `v`. -/
def leByte (v i : Nat) : Nat := v / 256 ^ i % 256

/-- Write the `n` little-endian bytes of `v` at addresses
`[o, o + n)`. -/
def writeBytes (m : Mem) (o n v : Nat) : Mem :=
  fun a => if o ≤ a ∧ a < o + n then leByte v (a - o) else m a

/-- Read an `n`-byte little-endian value from addresses
`[o, o + n)`. -/
def readBytes (m : Mem) (o : Nat) : Nat → Nat
  | 0 => 0
  | n + 1 => readBytes m o n + m (o + n) * 256 ^ n

theorem writeBytes_hit (m : Mem) (o n v i : Nat) (h : i < n) :
    writeBytes m o n v (o + i) = leByte v i := by
  unfold writeBytes
  have h1 : o ≤ o + i ∧ o + i < o + n := by omega
  rw [if_pos h1]
  congr 1
  omega

theorem writeBytes_miss (m : Mem) (o n v a : Nat)
    (h : a < o ∨ o + n ≤ a) : writeBytes m o n v a = m a := by
  unfold writeBytes
  rw [if_neg]
  omega

theorem readBytes_congr (m1 m2 : Mem) (o n : Nat)
    (h : ∀ i, i < n → m1 (o + i) = m2 (o + i)) :
    readBytes m1 o n = readBytes m2 o n := by
  induction n with
  | zero => rfl
  | succ k ih =>
      unfold readBytes
      rw [ih (fun i hi => h i (Nat.lt_succ_of_lt hi)),
        h k (Nat.lt_succ_self k)]

theorem readBytes_of_leBytes (m : Mem) (o n v : Nat)
    (h : ∀ i, i < n → m (o + i) = leByte v i) :
    readBytes m o n = v % 256 ^ n := by
  induction n with
  | zero => simp [readBytes, Nat.mod_one]
  | succ k ih =>
      unfold readBytes
      rw [ih (fun i hi => h i (Nat.lt_succ_of_lt hi)),
        h k (Nat.lt_succ_self k)]
      have hpow : (256 : Nat) ^ (k + 1) = 256 ^ k * 256 := by
        rw [Nat.pow_succ]
      rw [hpow, Nat.mod_mul]
      unfold leByte
      ring

theorem readBytes_writeBytes (m : Mem) (o n v : Nat) :
    readBytes (writeBytes m o n v) o n = v % 256 ^ n :=
  readBytes_of_leBytes _ o n v
    (fun i hi => writeBytes_hit m o n v i hi)

theorem readBytes_writeBytes_of_lt (m : Mem) (o n v : Nat)
    (h : v < 256 ^ n) :
    readBytes (writeBytes m o n v) o n = v := by
  rw [readBytes_writeBytes, Nat.mod_eq_of_lt h]

theorem readBytes_writeBytes_disjoint (m : Mem) (o n v o' n' : Nat)
    (h : o' + n' ≤ o ∨ o + n ≤ o') :
    readBytes (writeBytes m o n v) o' n' = readBytes m o' n' := by
  refine readBytes_congr _ _ _ _ (fun i hi => ?_)
  exact writeBytes_miss m o n v (o' + i) (by omega)

theorem pow256_eq : (256 : Nat) ^ 8 = SIZE_MOD := by
  unfold SIZE_MOD
  norm_num

/-- Fill `n` consecutive pointer-sized slots starting at address
`start`: slot `i` (addresses `[start + i*ptrSize, start+(i+1)*ptrSize)`)
receives the pointer value `f i`.  Both loops of `lcl_array2d_init`
and `lcl_array3d_init` are instances of this pattern. -/
def slotFill (m0 : Mem) (start : Nat) (f : Nat → Nat) (n : Nat) : Mem :=
  (List.range n).foldl
    (fun m i => writeBytes m (start + i * ptrSize) ptrSize (f i)) m0

theorem slotFill_zero (m0 : Mem) (start : Nat) (f : Nat → Nat) :
    slotFill m0 start f 0 = m0 := rfl

theorem slotFill_succ (m0 : Mem) (start : Nat) (f : Nat → Nat) (n : Nat) :
    slotFill m0 start f (n + 1) =
      writeBytes (slotFill m0 start f n) (start + n * ptrSize) ptrSize (f n) := by
  unfold slotFill
  rw [List.range_succ, List.foldl_append]
  rfl

/-- Pointwise characterization of `slotFill`: inside the filled
region a byte is the appropriate little-endian byte of the slot's
value, outside it the original memory shows through. -/
theorem slotFill_lookup (m0 : Mem) (start : Nat) (f : Nat → Nat)
    (n : Nat) (a : Nat) :
    slotFill m0 start f n a =
      if start ≤ a ∧ a < start + n * ptrSize then
        leByte (f ((a - start) / ptrSize)) ((a - start) % ptrSize)
      else m0 a := by
  induction n with
  | zero =>
      rw [slotFill_zero, if_neg]
      simp [ptrSize]
  | succ k ih =>
      rw [slotFill_succ]
      by_cases hnew : start + k * ptrSize ≤ a ∧ a < start + (k + 1) * ptrSize
      · have ha : a = (start + k * ptrSize) + (a - (start + k * ptrSize)) := by
          omega
        rw [ha, writeBytes_hit _ _ _ _ _ (by simp [ptrSize] at hnew ⊢; omega)]
        rw [if_pos (by simp [ptrSize] at hnew ⊢; omega)]
        congr 1
        · congr 1
          simp [ptrSize] at hnew ⊢
          omega
        · simp [ptrSize] at hnew ⊢
          omega
      · rw [writeBytes_miss _ _ _ _ _ (by simp [ptrSize] at hnew ⊢; omega), ih]
        by_cases hold : start ≤ a ∧ a < start + k * ptrSize
        · rw [if_pos hold, if_pos (by simp [ptrSize] at hold ⊢; omega)]
        · rw [if_neg hold, if_neg (by simp [ptrSize] at hnew hold ⊢; omega)]

theorem slotFill_out (m0 : Mem) (start : Nat) (f : Nat → Nat)
    (n : Nat) (a : Nat) (h : a < start ∨ start + n * ptrSize ≤ a) :
    slotFill m0 start f n a = m0 a := by
  rw [slotFill_lookup, if_neg (by omega)]

/-- Reading slot `i` back out of a `slotFill` region yields the
stored value, truncated to 64 bits. -/
theorem readBytes_slotFill (m0 : Mem) (start : Nat) (f : Nat → Nat)
    (n : Nat) (i : Nat) (hi : i < n) :
    readBytes (slotFill m0 start f n) (start + i * ptrSize) ptrSize =
      f i % SIZE_MOD := by
  rw [← pow256_eq]
  show readBytes _ _ 8 = _
  refine readBytes_of_leBytes _ _ _ _ (fun j hj => ?_)
  rw [show start + i * ptrSize + j = start + (i * ptrSize + j) by omega,
    slotFill_lookup, if_pos (by simp [ptrSize] at hj ⊢; omega)]
  congr 1
  · congr 1
    simp [ptrSize] at hj ⊢
    omega
  · simp [ptrSize] at hj ⊢
    omega

theorem readBytes_slotFill_below (m0 : Mem) (start : Nat)
    (f : Nat → Nat) (n : Nat) (o k : Nat) (h : o + k ≤ start) :
    readBytes (slotFill m0 start f n) o k = readBytes m0 o k := by
  refine readBytes_congr _ _ _ _ (fun i hi => ?_)
  exact slotFill_out _ _ _ _ _ (by omega)

/-! ## The 2D allocator, `lcl_array2d_init` (lcl_array.h:69-85) -/

/-- `alloc_len = rows * sizeof(unsigned char *) + rows * cols * type_size`
computed in `size_t` (every intermediate is reduced mod `2^64`;
composing the reductions is the same as one outer reduction). -/
def alloc_len2d (rows cols type_size : Nat) : Nat :=
  (rows * ptrSize + rows * cols * type_size) % SIZE_MOD

/-- `rows_start = (unsigned char *)(array + rows)` (lcl_array.h:79). -/
def rows_start2d (base rows : Nat) : Nat := base + rows * ptrSize

/-- The value stored by `array[row] = rows_start + row * cols * type_size`
(lcl_array.h:82); the product is `size_t` arithmetic, hence reduced
mod `2^64`. -/
def row_ptr2d (base rows cols type_size row : Nat) : Nat :=
  rows_start2d base rows + row * cols * type_size % SIZE_MOD

/-- Contents of the block after the row-pointer loop of
`lcl_array2d_init` (lcl_array.h:81-82), given the base address the
host allocator returned: slot `row` (at `&array[row]`, i.e. address
`base + row * ptrSize`) receives `row_ptr2d`, everything else stays
as `calloc` left it (zero). -/
def array2d_mem (base rows cols type_size : Nat) : Mem :=
  (List.range rows).foldl
    (fun m row => writeBytes m (base + row * ptrSize) ptrSize
      (row_ptr2d base rows cols type_size row)) zeroMem

/-- `lcl_array2d_init`: request `alloc_len2d` zeroed bytes from the
host allocator; on failure return `none` (NULL), otherwise the block
with the row-pointer table filled in. -/
def lcl_array2d_init (host : Nat → Option Nat) (rows cols type_size : Nat) :
    Option (Nat × Mem) :=
  match host (alloc_len2d rows cols type_size) with
  | none => none
  | some base => some (base, array2d_mem base rows cols type_size)

theorem array2d_mem_eq_slotFill (base rows cols type_size : Nat) :
    array2d_mem base rows cols type_size =
      slotFill zeroMem base (row_ptr2d base rows cols type_size) rows := rfl

/-- Element address `&handle[r][c]` in the intended layout. -/
def elemAddr2d (base rows cols type_size r c : Nat) : Nat :=
  rows_start2d base rows + (r * cols + c) * type_size

/-- Reading row-pointer slot `r` of the finished 2D block, exact
provided the whole block sits below address `2^64`. -/
theorem array2d_slot (base rows cols type_size r : Nat)
    (hr : r < rows)
    (hfit : base + rows * ptrSize + rows * cols * type_size < SIZE_MOD) :
    readBytes (array2d_mem base rows cols type_size)
      (base + r * ptrSize) ptrSize =
      rows_start2d base rows + r * cols * type_size := by
  rw [array2d_mem_eq_slotFill, readBytes_slotFill _ _ _ _ _ hr]
  have hle : r * cols * type_size ≤ rows * cols * type_size := by
    exact Nat.mul_le_mul_right _ (Nat.mul_le_mul_right _ hr.le)
  unfold row_ptr2d rows_start2d
  have h1 : r * cols * type_size % SIZE_MOD = r * cols * type_size :=
    Nat.mod_eq_of_lt (by omega)
  rw [h1, Nat.mod_eq_of_lt (by omega)]

/-- Bytes of the 2D block at or above the start of the data region
are untouched by the pointer loop, hence zero. -/
theorem array2d_data_zero (base rows cols type_size a : Nat)
    (h : rows_start2d base rows ≤ a) :
    array2d_mem base rows cols type_size a = 0 := by
  rw [array2d_mem_eq_slotFill,
    slotFill_out _ _ _ _ _ (by unfold rows_start2d at h; omega)]
  rfl

/-! ## The 3D allocator, `lcl_array3d_init` (lcl_array.h:87-112) -/

/-- `alloc_len = layers * sizeof(unsigned char **) +
layers * rows * sizeof(unsigned char *) +
layers * rows * cols * type_size` in `size_t` arithmetic
(lcl_array.h:90-92). -/
def alloc_len3d (layers rows cols type_size : Nat) : Nat :=
  (layers * ptrSize + layers * rows * ptrSize +
    layers * rows * cols * type_size) % SIZE_MOD

/-- `rows_start = (unsigned char **)(array + layers)` (lcl_array.h:98). -/
def rows_start3d (base layers : Nat) : Nat := base + layers * ptrSize

/-- Value stored by `array[layer] = rows_start + layer * rows`
(lcl_array.h:101): the `size_t` product `layer * rows` wraps, the
pointer arithmetic scales it by `sizeof(unsigned char *)`. -/
def layer_ptr3d (base layers rows layer : Nat) : Nat :=
  rows_start3d base layers + layer * rows % SIZE_MOD * ptrSize

/-- `cols_start = (unsigned char *)rows_start + (layers * rows *
sizeof(unsigned char *))` (lcl_array.h:103-104); the parenthesized
expression is `size_t` arithmetic. -/
def cols_start3d (base layers rows : Nat) : Nat :=
  rows_start3d base layers + layers * rows * ptrSize % SIZE_MOD

/-- Value stored by `array[layer][row] = cols_start + type_size *
(row + layer * rows) * cols` (lcl_array.h:108-109), the products
again wrapping in `size_t`. -/
def row_ptr3d (base layers rows cols type_size layer row : Nat) : Nat :=
  cols_start3d base layers rows +
    type_size * (row + layer * rows) * cols % SIZE_MOD

/-- Contents of the 3D block after both pointer loops of
`lcl_array3d_init` (lcl_array.h:100-109).  The first loop fills the
`layers` top slots; the second loop stores through `array[layer][row]`,
which loads the top pointer `array[layer]` back out of memory and
offsets it by `row` pointer widths. -/
def array3d_mem (base layers rows cols type_size : Nat) : Mem :=
  let m1 := (List.range layers).foldl
    (fun m layer => writeBytes m (base + layer * ptrSize) ptrSize
      (layer_ptr3d base layers rows layer)) zeroMem
  (List.range layers).foldl
    (fun m layer => (List.range rows).foldl
      (fun m' row => writeBytes m'
        (readBytes m' (base + layer * ptrSize) ptrSize + row * ptrSize)
        ptrSize (row_ptr3d base layers rows cols type_size layer row)) m)
    m1

/-- `lcl_array3d_init`: request `alloc_len3d` zeroed bytes; `none`
models the NULL return, otherwise the block with both pointer levels
filled in. -/
def lcl_array3d_init (host : Nat → Option Nat)
    (layers rows cols type_size : Nat) : Option (Nat × Mem) :=
  match host (alloc_len3d layers rows cols type_size) with
  | none => none
  | some base => some (base, array3d_mem base layers rows cols type_size)

/-- Where top pointer `layer` should point: the start of that
layer's slice of the second-level pointer table (unwrapped
arithmetic). -/
def layerSliceAddr (base layers rows layer : Nat) : Nat :=
  base + layers * ptrSize + layer * rows * ptrSize

/-- Start of the 3D data region in unwrapped arithmetic. -/
def dataStart3d (base layers rows : Nat) : Nat :=
  base + layers * ptrSize + layers * rows * ptrSize

/-- Element address `&handle[l][r][c]` in the intended 3D layout. -/
def elemAddr3d (base layers rows cols type_size l r c : Nat) : Nat :=
  dataStart3d base layers rows + ((l * rows + r) * cols + c) * type_size

/-- The second pointer loop of `lcl_array3d_init`, exactly as in the
source (`array[layer][row]` loads `array[layer]` from memory), with
the loop bound over layers generalized. -/
def ptrLoops3d (base : Nat) (g : Nat → Nat → Nat) (rows : Nat)
    (m0 : Mem) (nl : Nat) : Mem :=
  (List.range nl).foldl
    (fun m layer => (List.range rows).foldl
      (fun m' row => writeBytes m'
        (readBytes m' (base + layer * ptrSize) ptrSize + row * ptrSize)
        ptrSize (g layer row)) m) m0

/-- Memory-read-free reformulation of the second pointer loop: slot
`(layer, row)` is written at the precomputed address
`layerSliceAddr + row * ptrSize`. -/
def ptrLoops3dPure (base layers rows : Nat) (g : Nat → Nat → Nat)
    (m0 : Mem) (nl : Nat) : Mem :=
  (List.range nl).foldl
    (fun m layer =>
      slotFill m (layerSliceAddr base layers rows layer) (g layer) rows) m0

theorem array3d_mem_eq_loops (base layers rows cols type_size : Nat) :
    array3d_mem base layers rows cols type_size =
      ptrLoops3d base (row_ptr3d base layers rows cols type_size) rows
        (slotFill zeroMem base (layer_ptr3d base layers rows) layers)
        layers := rfl

theorem ptrLoops3d_succ (base : Nat) (g : Nat → Nat → Nat)
    (rows : Nat) (m0 : Mem) (n : Nat) :
    ptrLoops3d base g rows m0 (n + 1) =
      (List.range rows).foldl
        (fun m' row => writeBytes m'
          (readBytes m' (base + n * ptrSize) ptrSize + row * ptrSize)
          ptrSize (g n row))
        (ptrLoops3d base g rows m0 n) := by
  unfold ptrLoops3d
  rw [List.range_succ, List.foldl_append]
  rfl

theorem ptrLoops3dPure_succ (base layers rows : Nat)
    (g : Nat → Nat → Nat) (m0 : Mem) (n : Nat) :
    ptrLoops3dPure base layers rows g m0 (n + 1) =
      slotFill (ptrLoops3dPure base layers rows g m0 n)
        (layerSliceAddr base layers rows n) (g n) rows := by
  unfold ptrLoops3dPure
  rw [List.range_succ, List.foldl_append]
  rfl

/-- An inner row loop whose slot load always sees the same top
pointer `S` behaves like a pure `slotFill` at `S`. -/
theorem inner3d_eq_slotFill (slotAddr S : Nat) (g : Nat → Nat)
    (hS : slotAddr + ptrSize ≤ S) (m : Mem)
    (hread : readBytes m slotAddr ptrSize = S) (n : Nat) :
    (List.range n).foldl
      (fun m' row => writeBytes m'
        (readBytes m' slotAddr ptrSize + row * ptrSize) ptrSize (g row)) m
      = slotFill m S g n := by
  induction n with
  | zero => rfl
  | succ k ih =>
      rw [List.range_succ, List.foldl_append, ih]
      show writeBytes (slotFill m S g k)
        (readBytes (slotFill m S g k) slotAddr ptrSize + k * ptrSize)
        ptrSize (g k) = _
      rw [readBytes_slotFill_below _ _ _ _ _ _ hS, hread, slotFill_succ]

theorem layerSliceAddr_lt (base layers rows cols type_size l : Nat)
    (hl : l ≤ layers)
    (hfit : base + layers * ptrSize + layers * rows * ptrSize +
      layers * rows * cols * type_size < SIZE_MOD) :
    layerSliceAddr base layers rows l < SIZE_MOD := by
  have h1 : l * rows ≤ layers * rows := Nat.mul_le_mul_right _ hl
  unfold layerSliceAddr
  simp only [ptrSize] at hfit ⊢
  omega

theorem layer_ptr3d_collapse (base layers rows cols type_size l : Nat)
    (hl : l ≤ layers)
    (hov : layers * ptrSize + layers * rows * ptrSize +
      layers * rows * cols * type_size < SIZE_MOD) :
    layer_ptr3d base layers rows l = layerSliceAddr base layers rows l := by
  have h1 : l * rows ≤ layers * rows := Nat.mul_le_mul_right _ hl
  have h2 : l * rows % SIZE_MOD = l * rows := by
    refine Nat.mod_eq_of_lt ?_
    simp only [ptrSize] at hov
    omega
  unfold layer_ptr3d rows_start3d layerSliceAddr
  rw [h2]

theorem cols_start3d_collapse (base layers rows cols type_size : Nat)
    (hov : layers * ptrSize + layers * rows * ptrSize +
      layers * rows * cols * type_size < SIZE_MOD) :
    cols_start3d base layers rows = dataStart3d base layers rows := by
  unfold cols_start3d rows_start3d dataStart3d
  rw [Nat.mod_eq_of_lt (by omega)]

theorem row_ptr3d_collapse (base layers rows cols type_size l r : Nat)
    (hl : l < layers) (hr : r < rows)
    (hov : layers * ptrSize + layers * rows * ptrSize +
      layers * rows * cols * type_size < SIZE_MOD) :
    row_ptr3d base layers rows cols type_size l r =
      dataStart3d base layers rows +
        type_size * (r + l * rows) * cols := by
  have h1 : (l + 1) * rows ≤ layers * rows := Nat.mul_le_mul_right _ hl
  have h1' : (l + 1) * rows = l * rows + rows := by ring
  have h2 : type_size * (r + l * rows) * cols ≤
      type_size * (layers * rows) * cols := by
    refine Nat.mul_le_mul_right _ (Nat.mul_le_mul_left _ ?_)
    omega
  have h3 : type_size * (layers * rows) * cols =
      layers * rows * cols * type_size := by ring
  unfold row_ptr3d
  rw [cols_start3d_collapse base layers rows cols type_size hov,
    Nat.mod_eq_of_lt (by omega)]

theorem row_ptr3d_lt (base layers rows cols type_size l r : Nat)
    (hl : l < layers) (hr : r < rows)
    (hfit : base + layers * ptrSize + layers * rows * ptrSize +
      layers * rows * cols * type_size < SIZE_MOD) :
    row_ptr3d base layers rows cols type_size l r < SIZE_MOD := by
  rw [row_ptr3d_collapse base layers rows cols type_size l r hl hr (by omega)]
  have h1 : (l + 1) * rows ≤ layers * rows := Nat.mul_le_mul_right _ hl
  have h1' : (l + 1) * rows = l * rows + rows := by ring
  have h2 : type_size * (r + l * rows) * cols ≤
      type_size * (layers * rows) * cols := by
    refine Nat.mul_le_mul_right _ (Nat.mul_le_mul_left _ ?_)
    omega
  have h3 : type_size * (layers * rows) * cols =
      layers * rows * cols * type_size := by ring
  unfold dataStart3d
  omega

theorem ptrLoops3dPure_zero (base layers rows : Nat)
    (g : Nat → Nat → Nat) (m0 : Mem) :
    ptrLoops3dPure base layers rows g m0 0 = m0 := rfl

/-- After any prefix of the pure second loop, top slot `l` still
reads back as the address of layer `l`'s row-pointer slice. -/
theorem pure3d_top_read (base layers rows cols type_size : Nat)
    (hfit : base + layers * ptrSize + layers * rows * ptrSize +
      layers * rows * cols * type_size < SIZE_MOD)
    (l : Nat) (hl : l < layers) :
    ∀ n, n ≤ layers →
      readBytes (ptrLoops3dPure base layers rows
          (row_ptr3d base layers rows cols type_size)
          (slotFill zeroMem base (layer_ptr3d base layers rows) layers) n)
        (base + l * ptrSize) ptrSize
        = layerSliceAddr base layers rows l := by
  intro n
  induction n with
  | zero =>
      intro _
      rw [ptrLoops3dPure_zero, readBytes_slotFill _ _ _ _ _ hl,
        layer_ptr3d_collapse base layers rows cols type_size l hl.le (by omega),
        Nat.mod_eq_of_lt
          (layerSliceAddr_lt base layers rows cols type_size l hl.le hfit)]
  | succ k ih =>
      intro hk
      rw [ptrLoops3dPure_succ,
        readBytes_slotFill_below _ _ _ _ _ _ (by
          unfold layerSliceAddr
          simp only [ptrSize]
          omega)]
      exact ih (by omega)

/-- After processing the first `n` layers of the pure second loop,
second-level slot `(l, r)` with `l < n` holds the address of row
`(l, r)`'s data. -/
theorem pure3d_second_read (base layers rows cols type_size : Nat)
    (hfit : base + layers * ptrSize + layers * rows * ptrSize +
      layers * rows * cols * type_size < SIZE_MOD)
    (l r : Nat) (hr : r < rows) :
    ∀ n, n ≤ layers → l < n →
      readBytes (ptrLoops3dPure base layers rows
          (row_ptr3d base layers rows cols type_size)
          (slotFill zeroMem base (layer_ptr3d base layers rows) layers) n)
        (layerSliceAddr base layers rows l + r * ptrSize) ptrSize
        = dataStart3d base layers rows +
            type_size * (r + l * rows) * cols := by
  intro n
  induction n with
  | zero =>
      intro _ h
      exact absurd h (Nat.not_lt_zero l)
  | succ k ih =>
      intro hk hln
      rw [ptrLoops3dPure_succ]
      by_cases hlk : l = k
      · subst hlk
        rw [readBytes_slotFill _ _ _ _ _ hr,
          Nat.mod_eq_of_lt
            (row_ptr3d_lt base layers rows cols type_size l r
              (by omega) hr hfit)]
        exact row_ptr3d_collapse base layers rows cols type_size l r
          (by omega) hr (by omega)
      · have hlk' : l < k := by omega
        have h1 : (l + 1) * rows ≤ k * rows := Nat.mul_le_mul_right _ hlk'
        have h1' : (l + 1) * rows = l * rows + rows := by ring
        rw [readBytes_slotFill_below _ _ _ _ _ _ (by
          unfold layerSliceAddr
          simp only [ptrSize] at h1 h1' ⊢
          omega)]
        exact ih (by omega) hlk'

/-- The pure second loop never touches an address at or above the
data region. -/
theorem pure3d_out (base layers rows cols type_size : Nat) (a : Nat)
    (ha : dataStart3d base layers rows ≤ a) :
    ∀ n, n ≤ layers →
      ptrLoops3dPure base layers rows
          (row_ptr3d base layers rows cols type_size)
          (slotFill zeroMem base (layer_ptr3d base layers rows) layers) n a
        = slotFill zeroMem base (layer_ptr3d base layers rows) layers a := by
  intro n
  induction n with
  | zero => intro _; rfl
  | succ k ih =>
      intro hk
      have h1 : (k + 1) * rows ≤ layers * rows := Nat.mul_le_mul_right _ hk
      have h1' : (k + 1) * rows = k * rows + rows := by ring
      rw [ptrLoops3dPure_succ,
        slotFill_out _ _ _ _ _ (by
          unfold dataStart3d at ha
          unfold layerSliceAddr
          simp only [ptrSize] at h1 h1' ha ⊢
          omega)]
      exact ih (by omega)

/-- The in-memory second loop of the source coincides with its pure
reformulation, because each slot load sees the value the first loop
stored. -/
theorem loops3d_eq_pure (base layers rows cols type_size : Nat)
    (hfit : base + layers * ptrSize + layers * rows * ptrSize +
      layers * rows * cols * type_size < SIZE_MOD) :
    ∀ n, n ≤ layers →
      ptrLoops3d base (row_ptr3d base layers rows cols type_size) rows
          (slotFill zeroMem base (layer_ptr3d base layers rows) layers) n
        = ptrLoops3dPure base layers rows
            (row_ptr3d base layers rows cols type_size)
            (slotFill zeroMem base (layer_ptr3d base layers rows) layers) n := by
  intro n
  induction n with
  | zero => intro _; rfl
  | succ k ih =>
      intro hk
      rw [ptrLoops3d_succ, ih (by omega), ptrLoops3dPure_succ]
      refine inner3d_eq_slotFill (base + k * ptrSize)
        (layerSliceAddr base layers rows k)
        (row_ptr3d base layers rows cols type_size k)
        (by
          unfold layerSliceAddr
          simp only [ptrSize]
          omega) _
        (pure3d_top_read base layers rows cols type_size hfit k
          (by omega) k (by omega)) rows

/-- Top slot `l` of the finished 3D block reads back as the start of
layer `l`'s slice of the second-level pointer table. -/
theorem array3d_top_slot (base layers rows cols type_size l : Nat)
    (hl : l < layers)
    (hfit : base + layers * ptrSize + layers * rows * ptrSize +
      layers * rows * cols * type_size < SIZE_MOD) :
    readBytes (array3d_mem base layers rows cols type_size)
      (base + l * ptrSize) ptrSize = layerSliceAddr base layers rows l := by
  rw [array3d_mem_eq_loops,
    loops3d_eq_pure base layers rows cols type_size hfit layers le_rfl]
  exact pure3d_top_read base layers rows cols type_size hfit l hl
    layers le_rfl

/-- Second-level slot `(l, r)` of the finished 3D block reads back
as the start of row `r` of layer `l` in the data region. -/
theorem array3d_second_slot (base layers rows cols type_size l r : Nat)
    (hl : l < layers) (hr : r < rows)
    (hfit : base + layers * ptrSize + layers * rows * ptrSize +
      layers * rows * cols * type_size < SIZE_MOD) :
    readBytes (array3d_mem base layers rows cols type_size)
      (layerSliceAddr base layers rows l + r * ptrSize) ptrSize
      = dataStart3d base layers rows + type_size * (r + l * rows) * cols := by
  rw [array3d_mem_eq_loops,
    loops3d_eq_pure base layers rows cols type_size hfit layers le_rfl]
  exact pure3d_second_read base layers rows cols type_size hfit l r hr
    layers le_rfl hl

/-- Every byte of the 3D block at or above the data region is still
zero after both pointer loops. -/
theorem array3d_data_zero (base layers rows cols type_size a : Nat)
    (ha : dataStart3d base layers rows ≤ a)
    (hfit : base + layers * ptrSize + layers * rows * ptrSize +
      layers * rows * cols * type_size < SIZE_MOD) :
    array3d_mem base layers rows cols type_size a = 0 := by
  rw [array3d_mem_eq_loops,
    loops3d_eq_pure base layers rows cols type_size hfit layers le_rfl,
    pure3d_out base layers rows cols type_size a ha layers le_rfl,
    slotFill_out _ _ _ _ _ (by
      unfold dataStart3d at ha
      simp only [ptrSize] at ha ⊢
      omega)]
  rfl

/-- Distinct valid `(row, col)` pairs give distinct row-major
indices. -/
theorem index2d_ne (cols r c r' c' : Nat) (hc : c < cols)
    (hc' : c' < cols) (hne : ¬(r = r' ∧ c = c')) :
    r * cols + c ≠ r' * cols + c' := by
  rcases Nat.lt_trichotomy r r' with hlt | heq | hgt
  · have h1 : (r + 1) * cols ≤ r' * cols := Nat.mul_le_mul_right _ hlt
    have h1' : (r + 1) * cols = r * cols + cols := by ring
    omega
  · subst heq
    have hcc : c ≠ c' := fun h => hne ⟨rfl, h⟩
    omega
  · have h1 : (r' + 1) * cols ≤ r * cols := Nat.mul_le_mul_right _ hgt
    have h1' : (r' + 1) * cols = r' * cols + cols := by ring
    omega

/-! ## Claim theorems -/

/-- C1: after `lcl_array2d_init` fills the block, row-pointer slot
`r` holds the address `dataRegionStart + r * cols * elementSize`,
where the data region starts right after the `rows` pointer-sized
slots (`rows_start2d`); consequently `handle[r][c]` resolves to
element `(r, c)` of a row-major flat data region. -/
theorem C1_array2d_row_pointer_table (base rows cols type_size r c : Nat)
    (hr : r < rows) (hc : c < cols)
    (hfit : base + rows * ptrSize + rows * cols * type_size < SIZE_MOD) :
    readBytes (array2d_mem base rows cols type_size)
        (base + r * ptrSize) ptrSize
      = rows_start2d base rows + r * cols * type_size
    ∧ readBytes (array2d_mem base rows cols type_size)
        (base + r * ptrSize) ptrSize + c * type_size
      = elemAddr2d base rows cols type_size r c := by
  have h := array2d_slot base rows cols type_size r hr hfit
  refine ⟨h, ?_⟩
  rw [h]
  unfold elemAddr2d rows_start2d
  ring

/-- C1 witness: `base = 0, rows = 2, cols = 3, type_size = 4, r = 1,
c = 2`. -/
theorem C1_array2d_row_pointer_table_witness :
    (1 < 2 ∧ 2 < 3 ∧ 0 + 2 * ptrSize + 2 * 3 * 4 < SIZE_MOD)
    ∧ (readBytes (array2d_mem 0 2 3 4) (0 + 1 * ptrSize) ptrSize
        = rows_start2d 0 2 + 1 * 3 * 4
      ∧ readBytes (array2d_mem 0 2 3 4) (0 + 1 * ptrSize) ptrSize + 2 * 4
        = elemAddr2d 0 2 3 4 1 2) :=
  ⟨⟨by decide, by decide, by decide⟩,
    C1_array2d_row_pointer_table 0 2 3 4 1 2 (by decide) (by decide)
      (by decide)⟩

/-- C2: after `lcl_array3d_init` fills the block, top slot `l`
holds `secondLevelRegionStart + l * rows * sizeof(pointer)` and
second-level slot `(l, r)` holds
`dataRegionStart + elementSize * cols * (r + l * rows)`, so
`handle[l][r][c]` resolves to element `(l, r, c)` in
row-major-within-layer, layer-major order. -/
theorem C2_array3d_pointer_tables (base layers rows cols type_size
    l r c : Nat)
    (hl : l < layers) (hr : r < rows) (hc : c < cols)
    (hfit : base + layers * ptrSize + layers * rows * ptrSize +
      layers * rows * cols * type_size < SIZE_MOD) :
    readBytes (array3d_mem base layers rows cols type_size)
        (base + l * ptrSize) ptrSize
      = rows_start3d base layers + l * rows * ptrSize
    ∧ readBytes (array3d_mem base layers rows cols type_size)
        (layerSliceAddr base layers rows l + r * ptrSize) ptrSize
      = dataStart3d base layers rows + type_size * cols * (r + l * rows)
    ∧ readBytes (array3d_mem base layers rows cols type_size)
        (layerSliceAddr base layers rows l + r * ptrSize) ptrSize
          + c * type_size
      = elemAddr3d base layers rows cols type_size l r c := by
  have h1 := array3d_top_slot base layers rows cols type_size l hl hfit
  have h2 := array3d_second_slot base layers rows cols type_size l r
    hl hr hfit
  refine ⟨?_, ?_, ?_⟩
  · rw [h1]
    unfold layerSliceAddr rows_start3d
    ring
  · rw [h2]
    congr 1
    ring
  · rw [h2]
    unfold elemAddr3d
    ring

/-- C2 witness: `base = 0, layers = 2, rows = 3, cols = 4,
type_size = 4, (l, r, c) = (1, 2, 3)`. -/
theorem C2_array3d_pointer_tables_witness :
    (1 < 2 ∧ 2 < 3 ∧ 3 < 4
      ∧ 0 + 2 * ptrSize + 2 * 3 * ptrSize + 2 * 3 * 4 * 4 < SIZE_MOD)
    ∧ (readBytes (array3d_mem 0 2 3 4 4) (0 + 1 * ptrSize) ptrSize
        = rows_start3d 0 2 + 1 * 3 * ptrSize
      ∧ readBytes (array3d_mem 0 2 3 4 4)
          (layerSliceAddr 0 2 3 1 + 2 * ptrSize) ptrSize
        = dataStart3d 0 2 3 + 4 * 4 * (2 + 1 * 3)
      ∧ readBytes (array3d_mem 0 2 3 4 4)
          (layerSliceAddr 0 2 3 1 + 2 * ptrSize) ptrSize + 3 * 4
        = elemAddr3d 0 2 3 4 4 1 2 3) :=
  ⟨⟨by decide, by decide, by decide, by decide⟩,
    C2_array3d_pointer_tables 0 2 3 4 4 1 2 3 (by decide) (by decide)
      (by decide) (by decide)⟩

/-- C4: with no size-computation overflow the three regions of the
3D block — top pointers `[base, rows_start3d)`, second-level
pointers `[rows_start3d, cols_start3d)`, data
`[cols_start3d, base + alloc_len3d)` — are pairwise disjoint, and
every pointer written by the two fill loops addresses a slice that
lies inside its target region. -/
theorem C4_array3d_layout_disjoint (base layers rows cols type_size : Nat)
    (hov : layers * ptrSize + layers * rows * ptrSize +
      layers * rows * cols * type_size < SIZE_MOD) :
    (∀ a, ¬(base ≤ a ∧ a < rows_start3d base layers
      ∧ rows_start3d base layers ≤ a ∧ a < cols_start3d base layers rows))
    ∧ (∀ a, ¬(base ≤ a ∧ a < rows_start3d base layers
      ∧ cols_start3d base layers rows ≤ a
      ∧ a < base + alloc_len3d layers rows cols type_size))
    ∧ (∀ a, ¬(rows_start3d base layers ≤ a
      ∧ a < cols_start3d base layers rows
      ∧ cols_start3d base layers rows ≤ a
      ∧ a < base + alloc_len3d layers rows cols type_size))
    ∧ (∀ l, l < layers →
      rows_start3d base layers ≤ layer_ptr3d base layers rows l
      ∧ layer_ptr3d base layers rows l + rows * ptrSize
          ≤ cols_start3d base layers rows)
    ∧ (∀ l r, l < layers → r < rows →
      cols_start3d base layers rows
          ≤ row_ptr3d base layers rows cols type_size l r
      ∧ row_ptr3d base layers rows cols type_size l r + cols * type_size
          ≤ base + alloc_len3d layers rows cols type_size) := by
  have hlen : alloc_len3d layers rows cols type_size =
      layers * ptrSize + layers * rows * ptrSize +
        layers * rows * cols * type_size := by
    unfold alloc_len3d
    exact Nat.mod_eq_of_lt hov
  have hcs : cols_start3d base layers rows = dataStart3d base layers rows :=
    cols_start3d_collapse base layers rows cols type_size hov
  refine ⟨?_, ?_, ?_, ?_, ?_⟩
  · intro a h
    omega
  · intro a h
    rw [hcs] at h
    unfold rows_start3d dataStart3d at h
    omega
  · intro a h
    omega
  · intro l hl
    rw [layer_ptr3d_collapse base layers rows cols type_size l hl.le hov,
      hcs]
    have h1 : (l + 1) * rows ≤ layers * rows := Nat.mul_le_mul_right _ hl
    have h1' : (l + 1) * rows = l * rows + rows := by ring
    unfold layerSliceAddr rows_start3d dataStart3d
    simp only [ptrSize] at h1 h1' ⊢
    omega
  · intro l r hl hr
    rw [row_ptr3d_collapse base layers rows cols type_size l r hl hr hov,
      hcs, hlen]
    have h1 : (l + 1) * rows ≤ layers * rows := Nat.mul_le_mul_right _ hl
    have h1' : (l + 1) * rows = l * rows + rows := by ring
    have h4 : type_size * (r + l * rows + 1) * cols ≤
        type_size * (layers * rows) * cols := by
      refine Nat.mul_le_mul_right _ (Nat.mul_le_mul_left _ ?_)
      omega
    have h4' : type_size * (r + l * rows + 1) * cols =
        type_size * (r + l * rows) * cols + type_size * cols := by
      ring
    have h5 : type_size * cols = cols * type_size := by ring
    have h3 : type_size * (layers * rows) * cols =
        layers * rows * cols * type_size := by ring
    unfold dataStart3d
    omega

/-- C4 witness: `base = 0, layers = 2, rows = 3, cols = 4,
type_size = 4`. -/
theorem C4_array3d_layout_disjoint_witness :
    (2 * ptrSize + 2 * 3 * ptrSize + 2 * 3 * 4 * 4 < SIZE_MOD)
    ∧ ((∀ a, ¬((0 : Nat) ≤ a ∧ a < rows_start3d 0 2
        ∧ rows_start3d 0 2 ≤ a ∧ a < cols_start3d 0 2 3))
      ∧ (∀ a, ¬((0 : Nat) ≤ a ∧ a < rows_start3d 0 2
        ∧ cols_start3d 0 2 3 ≤ a ∧ a < 0 + alloc_len3d 2 3 4 4))
      ∧ (∀ a, ¬(rows_start3d 0 2 ≤ a ∧ a < cols_start3d 0 2 3
        ∧ cols_start3d 0 2 3 ≤ a ∧ a < 0 + alloc_len3d 2 3 4 4))
      ∧ (∀ l, l < 2 →
        rows_start3d 0 2 ≤ layer_ptr3d 0 2 3 l
        ∧ layer_ptr3d 0 2 3 l + 3 * ptrSize ≤ cols_start3d 0 2 3)
      ∧ (∀ l r, l < 2 → r < 3 →
        cols_start3d 0 2 3 ≤ row_ptr3d 0 2 3 4 4 l r
        ∧ row_ptr3d 0 2 3 4 4 l r + 4 * 4 ≤ 0 + alloc_len3d 2 3 4 4)) :=
  ⟨by decide, C4_array3d_layout_disjoint 0 2 3 4 4 (by decide)⟩

/-- C3: the source performs no overflow detection at all.  At
`rows = 2^63, cols = 2, type_size = 8` the `size_t` computation of
`alloc_len` wraps to `0` even though the true total is `3 * 2^66`,
and `lcl_array2d_init` still issues the truncated allocation request
and returns a handle instead of failing before allocating. -/
theorem C3_overflow_not_detected :
    alloc_len2d (2 ^ 63) 2 8 = 0
    ∧ 2 ^ 63 * ptrSize + 2 ^ 63 * 2 * 8 = 3 * 2 ^ 66
    ∧ lcl_array2d_init (fun _ => some 0) (2 ^ 63) 2 8
        = some (0, array2d_mem 0 (2 ^ 63) 2 8) :=
  ⟨by decide, by decide, rfl⟩

/-- C5: the pointer-filling loops write only below the data region,
so after a successful call every byte of the data region (2D: at or
after `rows_start2d`; 3D: at or after `dataStart3d`) still reads as
the zero `calloc` established. -/
theorem C5_data_region_zero_after_init :
    (∀ base rows cols type_size a, rows_start2d base rows ≤ a →
      array2d_mem base rows cols type_size a = 0)
    ∧ (∀ base layers rows cols type_size a,
      base + layers * ptrSize + layers * rows * ptrSize +
        layers * rows * cols * type_size < SIZE_MOD →
      dataStart3d base layers rows ≤ a →
      array3d_mem base layers rows cols type_size a = 0) :=
  ⟨fun base rows cols type_size a h =>
      array2d_data_zero base rows cols type_size a h,
    fun base layers rows cols type_size a hfit ha =>
      array3d_data_zero base layers rows cols type_size a ha hfit⟩

/-- C5 witness: a data-region byte of the `2 × 3` (element size 4)
2D block and of the `2 × 3 × 4` (element size 4) 3D block, both at
`base = 0`. -/
theorem C5_data_region_zero_after_init_witness :
    (rows_start2d 0 2 ≤ 20 ∧ array2d_mem 0 2 3 4 20 = 0)
    ∧ ((0 + 2 * ptrSize + 2 * 3 * ptrSize + 2 * 3 * 4 * 4 < SIZE_MOD
        ∧ dataStart3d 0 2 3 ≤ 70)
      ∧ array3d_mem 0 2 3 4 4 70 = 0) :=
  ⟨⟨by decide,
      C5_data_region_zero_after_init.1 0 2 3 4 20 (by decide)⟩,
    ⟨⟨by decide, by decide⟩,
      C5_data_region_zero_after_init.2 0 2 3 4 4 70 (by decide)
        (by decide)⟩⟩

/-- C6: in a 2D block, `handle[r][c]` (the row pointer loaded from
slot `r`, offset by `c` elements) resolves to `elemAddr2d`; writing
an element-sized value there and reading it back returns the value,
the write leaves the pointer table intact, and elements of distinct
valid `(r, c)` pairs occupy disjoint byte ranges. -/
theorem C6_round_trip_no_alias_2d (base rows cols type_size
    r c r' c' v : Nat)
    (hr : r < rows) (hc : c < cols) (hr' : r' < rows) (hc' : c' < cols)
    (hne : ¬(r = r' ∧ c = c')) (hv : v < 256 ^ type_size)
    (hfit : base + rows * ptrSize + rows * cols * type_size < SIZE_MOD) :
    readBytes (array2d_mem base rows cols type_size)
        (base + r * ptrSize) ptrSize + c * type_size
      = elemAddr2d base rows cols type_size r c
    ∧ readBytes
        (writeBytes (array2d_mem base rows cols type_size)
          (elemAddr2d base rows cols type_size r c) type_size v)
        (elemAddr2d base rows cols type_size r c) type_size = v
    ∧ readBytes
        (writeBytes (array2d_mem base rows cols type_size)
          (elemAddr2d base rows cols type_size r c) type_size v)
        (base + r * ptrSize) ptrSize
      = readBytes (array2d_mem base rows cols type_size)
          (base + r * ptrSize) ptrSize
    ∧ ∀ a, ¬(elemAddr2d base rows cols type_size r c ≤ a
      ∧ a < elemAddr2d base rows cols type_size r c + type_size
      ∧ elemAddr2d base rows cols type_size r' c' ≤ a
      ∧ a < elemAddr2d base rows cols type_size r' c' + type_size) := by
  refine ⟨?_, ?_, ?_, ?_⟩
  · rw [array2d_slot base rows cols type_size r hr hfit]
    unfold elemAddr2d rows_start2d
    ring
  · exact readBytes_writeBytes_of_lt _ _ _ _ hv
  · refine readBytes_writeBytes_disjoint _ _ _ _ _ _ (Or.inl ?_)
    unfold elemAddr2d rows_start2d
    simp only [ptrSize]
    omega
  · intro a h
    have hk := index2d_ne cols r c r' c' hc hc' hne
    unfold elemAddr2d rows_start2d at h
    rcases Nat.lt_trichotomy (r * cols + c) (r' * cols + c') with
      hlt | heq | hgt
    · have h1 : (r * cols + c + 1) * type_size ≤
          (r' * cols + c') * type_size := Nat.mul_le_mul_right _ hlt
      have h1' : (r * cols + c + 1) * type_size =
          (r * cols + c) * type_size + type_size := by ring
      omega
    · exact hk heq
    · have h1 : (r' * cols + c' + 1) * type_size ≤
          (r * cols + c) * type_size := Nat.mul_le_mul_right _ hgt
      have h1' : (r' * cols + c' + 1) * type_size =
          (r' * cols + c') * type_size + type_size := by ring
      omega

/-- C6 witness: `base = 0, rows = 2, cols = 3, type_size = 4`,
writing `v = 305419896` at `(r, c) = (1, 2)`, against `(r', c') =
(1, 1)`. -/
theorem C6_round_trip_no_alias_2d_witness :
    (1 < 2 ∧ 2 < 3 ∧ 1 < 2 ∧ 1 < 3 ∧ ¬(1 = 1 ∧ 2 = 1)
      ∧ 305419896 < 256 ^ 4
      ∧ 0 + 2 * ptrSize + 2 * 3 * 4 < SIZE_MOD)
    ∧ (readBytes (array2d_mem 0 2 3 4) (0 + 1 * ptrSize) ptrSize + 2 * 4
        = elemAddr2d 0 2 3 4 1 2
      ∧ readBytes
          (writeBytes (array2d_mem 0 2 3 4) (elemAddr2d 0 2 3 4 1 2) 4
            305419896)
          (elemAddr2d 0 2 3 4 1 2) 4 = 305419896
      ∧ readBytes
          (writeBytes (array2d_mem 0 2 3 4) (elemAddr2d 0 2 3 4 1 2) 4
            305419896)
          (0 + 1 * ptrSize) ptrSize
        = readBytes (array2d_mem 0 2 3 4) (0 + 1 * ptrSize) ptrSize
      ∧ ∀ a, ¬(elemAddr2d 0 2 3 4 1 2 ≤ a
        ∧ a < elemAddr2d 0 2 3 4 1 2 + 4
        ∧ elemAddr2d 0 2 3 4 1 1 ≤ a
        ∧ a < elemAddr2d 0 2 3 4 1 1 + 4)) :=
  ⟨⟨by decide, by decide, by decide, by decide, by decide, by decide,
      by decide⟩,
    C6_round_trip_no_alias_2d 0 2 3 4 1 2 1 1 305419896 (by decide)
      (by decide) (by decide) (by decide) (by decide) (by decide)
      (by decide)⟩

/-- C7: the degenerate shapes `2D(0, 5, 4)`, `2D(5, 0, 4)` and
`3D(0, 5, 5, 4)` all succeed once the host grants the (small, exact)
request, and their data regions are empty — the region bounds
coincide with the block end, so there is no element slot and no
overlap. -/
theorem C7_degenerate_shapes (host1 host2 host3 : Nat → Option Nat)
    (b1 b2 b3 : Nat)
    (h1 : host1 (alloc_len2d 0 5 4) = some b1)
    (h2 : host2 (alloc_len2d 5 0 4) = some b2)
    (h3 : host3 (alloc_len3d 0 5 5 4) = some b3) :
    lcl_array2d_init host1 0 5 4 = some (b1, array2d_mem b1 0 5 4)
    ∧ lcl_array2d_init host2 5 0 4 = some (b2, array2d_mem b2 5 0 4)
    ∧ lcl_array3d_init host3 0 5 5 4 = some (b3, array3d_mem b3 0 5 5 4)
    ∧ alloc_len2d 0 5 4 = 0
    ∧ alloc_len2d 5 0 4 = 5 * ptrSize
    ∧ alloc_len3d 0 5 5 4 = 0
    ∧ rows_start2d b1 0 = b1 + alloc_len2d 0 5 4
    ∧ rows_start2d b2 5 = b2 + alloc_len2d 5 0 4
    ∧ rows_start3d b3 0 = b3
    ∧ cols_start3d b3 0 5 = b3
    ∧ dataStart3d b3 0 5 = b3 + alloc_len3d 0 5 5 4 := by
  refine ⟨?_, ?_, ?_, by decide, by decide, by decide, ?_, ?_, ?_, ?_, ?_⟩
  · unfold lcl_array2d_init
    rw [h1]
  · unfold lcl_array2d_init
    rw [h2]
  · unfold lcl_array3d_init
    rw [h3]
  · unfold rows_start2d
    have : alloc_len2d 0 5 4 = 0 := by decide
    simp [this, ptrSize]
  · unfold rows_start2d
    have : alloc_len2d 5 0 4 = 40 := by decide
    simp [this, ptrSize]
  · unfold rows_start3d
    simp [ptrSize]
  · unfold cols_start3d rows_start3d
    have : (0 * 5 * ptrSize) % SIZE_MOD = 0 := by decide
    simp [this, ptrSize]
  · unfold dataStart3d
    have : alloc_len3d 0 5 5 4 = 0 := by decide
    simp [this, ptrSize]

/-- C7 witness: hosts returning bases 7, 8 and 9. -/
theorem C7_degenerate_shapes_witness :
    ((fun _ : Nat => some 7) (alloc_len2d 0 5 4) = some 7
      ∧ (fun _ : Nat => some 8) (alloc_len2d 5 0 4) = some 8
      ∧ (fun _ : Nat => some 9) (alloc_len3d 0 5 5 4) = some 9)
    ∧ (lcl_array2d_init (fun _ => some 7) 0 5 4
        = some (7, array2d_mem 7 0 5 4)
      ∧ lcl_array2d_init (fun _ => some 8) 5 0 4
        = some (8, array2d_mem 8 5 0 4)
      ∧ lcl_array3d_init (fun _ => some 9) 0 5 5 4
        = some (9, array3d_mem 9 0 5 5 4)
      ∧ alloc_len2d 0 5 4 = 0
      ∧ alloc_len2d 5 0 4 = 5 * ptrSize
      ∧ alloc_len3d 0 5 5 4 = 0
      ∧ rows_start2d 7 0 = 7 + alloc_len2d 0 5 4
      ∧ rows_start2d 8 5 = 8 + alloc_len2d 5 0 4
      ∧ rows_start3d 9 0 = 9
      ∧ cols_start3d 9 0 5 = 9
      ∧ dataStart3d 9 0 5 = 9 + alloc_len3d 0 5 5 4) :=
  ⟨⟨rfl, rfl, rfl⟩,
    C7_degenerate_shapes (fun _ => some 7) (fun _ => some 8)
      (fun _ => some 9) 7 8 9 rfl rfl rfl⟩

/-- C8: the data region starts at offset `rows * ptrSize` (2D)
resp. `layers * ptrSize + layers * rows * ptrSize` (3D) from the
block start — a multiple of the pointer size — so whenever the
element size divides the pointer size (and the host base is
pointer-aligned, as `calloc` guarantees), every element address is
naturally aligned. -/
theorem C8_data_region_alignment (base rows cols type_size r c
    layers l r3 c3 : Nat)
    (hb : ptrSize ∣ base) (hts : type_size ∣ ptrSize) :
    rows_start2d base rows - base = rows * ptrSize
    ∧ ptrSize ∣ rows_start2d base rows - base
    ∧ type_size ∣ elemAddr2d base rows cols type_size r c
    ∧ dataStart3d base layers rows - base
        = layers * ptrSize + layers * rows * ptrSize
    ∧ ptrSize ∣ dataStart3d base layers rows - base
    ∧ type_size ∣ elemAddr3d base layers rows cols type_size l r3 c3 := by
  have htb : type_size ∣ base := hts.trans hb
  have h2 : rows_start2d base rows - base = rows * ptrSize := by
    unfold rows_start2d
    omega
  have h3 : dataStart3d base layers rows - base
      = layers * ptrSize + layers * rows * ptrSize := by
    unfold dataStart3d
    omega
  refine ⟨h2, ?_, ?_, h3, ?_, ?_⟩
  · rw [h2]
    exact dvd_mul_left ptrSize rows
  · unfold elemAddr2d rows_start2d
    exact dvd_add (dvd_add htb (hts.mul_left rows)) (dvd_mul_left _ _)
  · rw [h3]
    exact dvd_add (dvd_mul_left _ _) (dvd_mul_left _ _)
  · unfold elemAddr3d dataStart3d
    exact dvd_add (dvd_add (dvd_add htb (hts.mul_left layers))
      (hts.mul_left (layers * rows))) (dvd_mul_left _ _)

/-- C8 witness: `base = 16, type_size = 4`, shapes `3 × 5` and
`2 × 3 × 5`, element `(1, 2)` resp. `(1, 2, 3)`. -/
theorem C8_data_region_alignment_witness :
    (ptrSize ∣ 16 ∧ 4 ∣ ptrSize)
    ∧ (rows_start2d 16 3 - 16 = 3 * ptrSize
      ∧ ptrSize ∣ rows_start2d 16 3 - 16
      ∧ 4 ∣ elemAddr2d 16 3 5 4 1 2
      ∧ dataStart3d 16 2 3 - 16 = 2 * ptrSize + 2 * 3 * ptrSize
      ∧ ptrSize ∣ dataStart3d 16 2 3 - 16
      ∧ 4 ∣ elemAddr3d 16 2 3 5 4 1 2 3) :=
  ⟨⟨by decide, by decide⟩,
    C8_data_region_alignment 16 3 5 4 1 2 2 1 2 3 (by decide)
      (by decide)⟩

/-- C9: with `type_size = 0` (and the host allocation succeeding)
`lcl_array2d_init` still succeeds, and every row-pointer slot holds
the same address: `rows_start2d`, the start of the zero-byte data
region. -/
theorem C9_zero_type_size_rows_alias (host : Nat → Option Nat)
    (b rows cols r : Nat) (hr : r < rows)
    (hhost : host (alloc_len2d rows cols 0) = some b)
    (hfit : b + rows * ptrSize < SIZE_MOD) :
    lcl_array2d_init host rows cols 0 = some (b, array2d_mem b rows cols 0)
    ∧ readBytes (array2d_mem b rows cols 0) (b + r * ptrSize) ptrSize
        = rows_start2d b rows := by
  constructor
  · unfold lcl_array2d_init
    rw [hhost]
  · have h := array2d_slot b rows cols 0 r hr (by simpa using hfit)
    simpa using h

/-- C9 witness: `rows = 2, cols = 5, type_size = 0`, host returning
base address 3; both row pointers read back as `rows_start2d 3 2`. -/
theorem C9_zero_type_size_rows_alias_witness :
    (1 < 2
      ∧ (fun _ : Nat => some 3) (alloc_len2d 2 5 0) = some 3
      ∧ 3 + 2 * ptrSize < SIZE_MOD)
    ∧ (lcl_array2d_init (fun _ => some 3) 2 5 0
        = some (3, array2d_mem 3 2 5 0)
      ∧ readBytes (array2d_mem 3 2 5 0) (3 + 1 * ptrSize) ptrSize
        = rows_start2d 3 2) :=
  ⟨⟨by decide, rfl, by decide⟩,
    C9_zero_type_size_rows_alias (fun _ => some 3) 3 2 5 1 (by decide)
      rfl (by decide)⟩

/-- C10: both allocators are deterministic functions of the
dimensions, the element size and the base address the host allocator
returns for the (single) request: two hosts that answer that request
identically yield identical results, pointer tables and data region
included. -/
theorem C10_deterministic (host1 host2 : Nat → Option Nat)
    (layers rows cols type_size : Nat)
    (h2 : host1 (alloc_len2d rows cols type_size)
        = host2 (alloc_len2d rows cols type_size))
    (h3 : host1 (alloc_len3d layers rows cols type_size)
        = host2 (alloc_len3d layers rows cols type_size)) :
    lcl_array2d_init host1 rows cols type_size
        = lcl_array2d_init host2 rows cols type_size
    ∧ lcl_array3d_init host1 layers rows cols type_size
        = lcl_array3d_init host2 layers rows cols type_size := by
  unfold lcl_array2d_init lcl_array3d_init
  rw [h2, h3]
  exact ⟨rfl, rfl⟩

/-- C10 witness: two observably different hosts that agree on the
two requested lengths produce identical allocations for the
`2 × 2 × 3` (element size 4) shapes. -/
theorem C10_deterministic_witness :
    ((fun _ : Nat => some 5) (alloc_len2d 2 3 4)
        = (fun n => if n ≤ 100 then some 5 else none) (alloc_len2d 2 3 4)
      ∧ (fun _ : Nat => some 5) (alloc_len3d 2 2 3 4)
        = (fun n => if n ≤ 100 then some 5 else none) (alloc_len3d 2 2 3 4))
    ∧ (lcl_array2d_init (fun _ => some 5) 2 3 4
        = lcl_array2d_init (fun n => if n ≤ 100 then some 5 else none) 2 3 4
      ∧ lcl_array3d_init (fun _ => some 5) 2 2 3 4
        = lcl_array3d_init (fun n => if n ≤ 100 then some 5 else none)
            2 2 3 4) :=
  ⟨⟨by decide, by decide⟩,
    C10_deterministic (fun _ => some 5)
      (fun n => if n ≤ 100 then some 5 else none) 2 2 3 4 (by decide)
      (by decide)⟩

end LCL
